import Mathlib

/-!
Shallow embedding of the QuickBooks-to-QuickBase sync service
(src/app.py, src/qb_sync.py): the verification-code mailbox and the two
SMS webhook adapters, the bank-feed refresh poll loop, the account,
transaction and balance-snapshot sync engine, and the sync orchestrator
guard. Machine strings are modelled as Lean strings over their ASCII
content; remote HTTP responses are modelled as optional parsed values,
with none standing for a non-200 status or a request exception.
-/

namespace QBSync

/-! ## Verification mailbox (src/app.py lines 128-137, 741-784) -/

/-- Whitespace characters removed by the Python str.strip method
(ASCII subset; the handled inputs are ASCII HTTP form fields). -/
def isPySpace (c : Char) : Bool :=
  c == ' ' || c == '\t' || c == '\n' || c == '\r' || c == '\x0b' || c == '\x0c'

/-- Strip of leading and trailing whitespace on a character list. -/
def pyStripList (l : List Char) : List Char :=
  ((l.dropWhile isPySpace).reverse.dropWhile isPySpace).reverse

/-- Python str.strip on a string. -/
def pyStrip (s : String) : String := String.mk (pyStripList s.data)

/-- Python str.isdigit: nonempty and every character a decimal digit
(digits modelled as ASCII 0-9). -/
def pyIsDigit (s : String) : Bool :=
  !s.data.isEmpty && s.data.all Char.isDigit

/-- Handler of POST /code, submit_code (src/app.py lines 128-137). The
mailbox is the process-wide state.pending_sms_code slot. The result pairs
the HTTP outcome (error 400 on an invalid code) with the mailbox state
after the call; the exception path leaves the mailbox untouched. -/
def submit_code (input : String) (mailbox : Option String) :
    Except Nat Unit × Option String :=
  let code := pyStrip input
  if code = "" ∨ code.length ≠ 6 ∨ pyIsDigit code = false then
    (Except.error 400, mailbox)
  else
    (Except.ok (), some code)

/-- Consumption of the pending code by the auto_login wait loop
(src/app.py lines 745-748): a truthy pending code is read and the slot is
cleared in the same step; a falsy slot yields nothing and is kept. -/
def takeCode (mailbox : Option String) : Option String × Option String :=
  match mailbox with
  | some c => if c ≠ "" then (some c, none) else (none, mailbox)
  | none => (none, none)

/-! ## SMS webhook adapters (src/app.py lines 140-224) -/

/-- Word characters for the regex word boundary b (ASCII model of the
regex word class). -/
def isWordChar (c : Char) : Bool := c.isAlphanum || c == '_'

/-- One match attempt of the pattern used by the webhook handlers at the
head of hay, given the character immediately before hay (none at the
start of the string): a word boundary, six digits, a word boundary. -/
def boundaryMatchHere (prev : Option Char) (hay : List Char) : Bool :=
  (match prev with
   | none => true
   | some c => !isWordChar c) &&
  (hay.take 6).length == 6 &&
  (hay.take 6).all Char.isDigit &&
  (match hay.drop 6 with
   | [] => true
   | c :: _ => !isWordChar c)

/-- Leftmost match of the regex search for a boundary-delimited six-digit
run (re.search in src/app.py lines 155 and 211), scanning positions left
to right with the preceding character threaded for the boundary test. -/
def searchSixDigits (prev : Option Char) : List Char → Option (List Char)
  | [] => none
  | c :: rest =>
    if boundaryMatchHere prev (c :: rest) then some ((c :: rest).take 6)
    else searchSixDigits (some c) rest

/-- Regex extraction applied to a message body string. -/
def sixDigitSearch (s : String) : Option String :=
  (searchSixDigits none s.data).map String.mk

/-- Twilio webhook handler (src/app.py lines 140-172): answers with an
HTTP status and the mailbox state after the call; both branches answer
200 (a TwiML acknowledgement). -/
def twilio_sms_webhook (body : String) (mailbox : Option String) :
    Nat × Option String :=
  match sixDigitSearch body with
  | some code => (200, some code)
  | none => (200, mailbox)

/-- Fields of the Telnyx webhook payload read by the handler. -/
structure TelnyxPayload where
  eventType : String
  text : String
deriving DecidableEq

/-- Telnyx webhook handler (src/app.py lines 175-224): none models a
request body whose JSON parsing raised (the handler catches the exception
and still answers 200 with an error status field); events other than
message.received are acknowledged and ignored. -/
def telnyx_sms_webhook (payload : Option TelnyxPayload)
    (mailbox : Option String) : Nat × Option String :=
  match payload with
  | none => (200, mailbox)
  | some p =>
    if p.eventType ≠ "message.received" then (200, mailbox)
    else
      match sixDigitSearch p.text with
      | some code => (200, some code)
      | none => (200, mailbox)

/-- Claim wording only: the body contains a run of six consecutive digits
somewhere, with no word-boundary requirement. Used to compare the claim
with the boundary-delimited pattern the handlers actually search for. -/
def specContainsSixDigitRun : List Char → Bool
  | [] => false
  | c :: rest =>
    ((((c :: rest).take 6).length == 6) && ((c :: rest).take 6).all Char.isDigit)
    || specContainsSixDigitRun rest

/-! ## Refresh poll loop (src/qb_sync.py lines 406-519, src/app.py lines 516-569) -/

/-- Per-institution sub-job entry of the manualUpdate response. -/
structure SubJob where
  isComplete : Bool
  hasError : Bool
deriving DecidableEq

/-- Body of one poll response of the manualUpdate endpoint, with the
fields the loop reads. -/
structure PollResponse where
  isComplete : Bool
  hasErrors : Bool
  subJobs : List SubJob
deriving DecidableEq

/-- Completion decision of one poll iteration of poll_update_status in
src/qb_sync.py (lines 461-506): none models a non-200 response or a
request exception, which decide nothing; a 200 response completes when
its top-level isComplete flag is set, or when it has at least one sub-job
and every sub-job reports complete. -/
def pollStepSync : Option PollResponse → Bool
  | none => false
  | some r =>
    let completed := r.subJobs.countP (fun sj => sj.isComplete)
    let total := r.subJobs.length
    if r.isComplete then true
    else if 0 < total ∧ completed = total then true
    else false

/-- Completion decision of one poll iteration of poll_update_status in
src/app.py (lines 529-560): only the top-level isComplete flag is
consulted; there is no all-subjobs fallback in this copy. -/
def pollStepApp : Option PollResponse → Bool
  | none => false
  | some r => r.isComplete

/-- Poll loop body of the app.py copy of poll_update_status (lines
516-569), with the wall clock abstracted to the sleep calls: the
iteration entered at elapsed time e is guarded by the check e < timeout,
reads the response of poll number e / interval, returns true at once on
a completion decision, and otherwise sleeps one interval. The
unconditional false at expiry is faithful to this copy, whose timeout
path logs only the timeout value and returns False; the qb_sync.py copy
has a different expiry path, modelled by pollIterSync below. The fuel
argument bounds the recursion; poll_update_status_loop supplies fuel
that is never exhausted for a positive interval. The result pairs the
outcome with the elapsed time at return. -/
def pollIter (step : Option PollResponse → Bool)
    (responses : Nat → Option PollResponse)
    (timeout interval : Nat) : Nat → Nat → Bool × Nat
  | elapsed, 0 => (false, elapsed)
  | elapsed, fuel + 1 =>
    if elapsed < timeout then
      if step (responses (elapsed / interval)) then (true, elapsed)
      else pollIter step responses timeout interval (elapsed + interval) fuel
    else (false, elapsed)

/-- Whole poll loop of the app.py copy of poll_update_status: starts at
elapsed time 0 and answers false (timed out) when the deadline passes,
never raising. -/
def poll_update_status_loop (step : Option PollResponse → Bool)
    (responses : Nat → Option PollResponse)
    (timeout interval : Nat) : Bool × Nat :=
  pollIter step responses timeout interval 0 (timeout + 1)

/-- Outcome of one whole run of the qb_sync.py copy of
poll_update_status: the return True path, the return False path, and the
exception its expiry path raises when the names completed, total and
is_complete were never bound because no 200 response was processed
during the window (qb_sync.py line 518 reads them in its timed-out log
line, yet they are assigned only inside the 200 branch at lines
463-470). -/
inductive PollResult
  | completed
  | timedOut
  | unboundLocalError
deriving DecidableEq

/-- Poll loop body of the qb_sync.py copy of poll_update_status (lines
431-519), with the same clock abstraction as pollIter. The bound flag
records whether a 200 response has been processed, which is exactly when
the locals completed, total and is_complete are bound: any 200 response
either decides completion (return True) or continues with the flag set;
a non-200 status or a request exception leaves the flag as it was. At
expiry the timed-out log line reads those locals, so the run returns
False when the flag is set and raises UnboundLocalError when it is
not. -/
def pollIterSync (responses : Nat → Option PollResponse)
    (timeout interval : Nat) : Bool → Nat → Nat → PollResult × Nat
  | bound, elapsed, 0 =>
    ((if bound then PollResult.timedOut else PollResult.unboundLocalError),
      elapsed)
  | bound, elapsed, fuel + 1 =>
    if elapsed < timeout then
      match responses (elapsed / interval) with
      | some r =>
        if pollStepSync (some r) then (PollResult.completed, elapsed)
        else pollIterSync responses timeout interval true
          (elapsed + interval) fuel
      | none =>
        pollIterSync responses timeout interval bound
          (elapsed + interval) fuel
    else
      ((if bound then PollResult.timedOut else PollResult.unboundLocalError),
        elapsed)

/-- Whole run of the qb_sync.py copy of poll_update_status: starts with
the three status locals unbound at elapsed time 0. -/
def poll_update_status_sync (responses : Nat → Option PollResponse)
    (timeout interval : Nat) : PollResult × Nat :=
  pollIterSync responses timeout interval false 0 (timeout + 1)

/-- Scenario response of the spec: top-level flag stale, two sub-jobs and
both complete. -/
def scenarioResponse : PollResponse :=
  { isComplete := false, hasErrors := false,
    subJobs := [⟨true, false⟩, ⟨true, false⟩] }

/-! ## Account sync (src/app.py lines 1105-1162, src/qb_sync.py lines 629-701) -/

/-- Row of a QuickBase response data list as read by sync_accounts: the
value of the quickbooks id field and the value of field 3 (the record
id); a missing value is none. -/
structure RespRow where
  qbId : Option Int
  recordId : Option Nat
deriving DecidableEq

/-- Python dict assignment on a map modelled by its lookup function. -/
def dictSet (m : String → Option Nat) (k : String) (v : Nat) :
    String → Option Nat :=
  fun k2 => if k2 = k then some v else m k2

/-- Key under which a response row is stored: str(int(qb_id)). -/
def keyOf (q : Int) : String := toString q

/-- Fold of one response data list into the account map (the two loop
bodies of sync_accounts, src/app.py lines 1143-1147 and 1155-1159): a row
contributes only when its quickbooks id is present and its record id is
truthy (present and nonzero). -/
def addRespRows : (String → Option Nat) → List RespRow → String → Option Nat
  | m, [] => m
  | m, row :: rest =>
    addRespRows
      (match row.qbId, row.recordId with
       | some q, some r => if r ≠ 0 then dictSet m (keyOf q) r else m
       | _, _ => m)
      rest

/-- Value that a response data list ends up assigning to key k: the last
row whose quickbooks id renders to k and whose record id is truthy. -/
def respAssigns : List RespRow → String → Option Nat
  | [], _ => none
  | row :: rest, k =>
    match respAssigns rest k with
    | some v => some v
    | none =>
      match row.qbId, row.recordId with
      | some q, some r => if r ≠ 0 ∧ keyOf q = k then some r else none
      | _, _ => none

/-- sync_accounts map construction (src/app.py lines 1140-1162): starts
from an empty dict, folds in the upsert response when it returned 200,
then folds in the full-table query response when it returned 200; none
models a non-200 response, which contributes nothing. -/
def sync_accounts (upsertResp queryResp : Option (List RespRow)) :
    String → Option Nat :=
  let m0 : String → Option Nat := fun _ => none
  let m1 := match upsertResp with
    | some rows => addRespRows m0 rows
    | none => m0
  match queryResp with
  | some rows => addRespRows m1 rows
  | none => m1

/-! ## Transaction sync (src/qb_sync.py lines 801-866, src/app.py lines 1254-1296) -/

/-- Scraped pending transaction, with the fields sync_transactions
reads. -/
structure Txn where
  id : String
  olbTxnId : String
  txnDate : String
  description : String
  amount : Int
  txnType : String
  merchantName : String
  accountId : String
deriving DecidableEq

/-- Record payload built per transaction; quickbooksId holds the olb
transaction id used as the merge key. -/
structure TxnRecord where
  quickbooksId : String
  internalId : Nat
  recDate : String
  description : String
  amount : Int
  recType : String
  merchantName : String
  relatedAccount : Nat
deriving DecidableEq

/-- Derivation of the internal id field (src/app.py lines 1264-1269): an
empty source id gives 0; otherwise keep the part before the first colon,
keep only its digits, and parse them, with 0 when no digit remains. -/
def internalIdOf (s : String) : Nat :=
  if s = "" then 0
  else
    let firstPart := (s.splitOn ":").headD ""
    let digits := firstPart.data.filter Char.isDigit
    if digits.isEmpty then 0
    else (String.mk digits).toNat?.getD 0

/-- Record built for a transaction whose account resolved to record id
rid (src/app.py lines 1271-1280). -/
def recordOfTxn (t : Txn) (rid : Nat) : TxnRecord :=
  { quickbooksId := t.olbTxnId
    internalId := internalIdOf t.id
    recDate := t.txnDate
    description := t.description
    amount := t.amount
    recType := t.txnType
    merchantName := t.merchantName
    relatedAccount := rid }

/-- Record-building loop of sync_transactions (src/qb_sync.py lines
810-834): a transaction whose account id resolves to no truthy record id
is counted as skipped and contributes no record; the record list keeps
input order. -/
def collectTxnRecords (amap : String → Option Nat) :
    List Txn → Nat × List TxnRecord
  | [] => (0, [])
  | t :: ts =>
    let rest := collectTxnRecords amap ts
    match amap t.accountId with
    | some rid =>
      if rid ≠ 0 then (rest.1, recordOfTxn t rid :: rest.2)
      else (rest.1 + 1, rest.2)
    | none => (rest.1 + 1, rest.2)

/-- Test for a transaction the loop skips: its account id is absent from
the map or maps to a falsy record id. -/
def txnUnmapped (amap : String → Option Nat) (t : Txn) : Bool :=
  match amap t.accountId with
  | some rid => rid == 0
  | none => true

/-- Chunking of the record list into consecutive batches of at most size
records; the fuel argument bounds the recursion and chunks supplies the
list length, which is enough fuel for any positive size. -/
def chunksGo {α : Type} (size : Nat) : Nat → List α → List (List α)
  | _, [] => []
  | 0, a :: t => [a :: t]
  | fuel + 1, a :: t =>
    (a :: t).take size :: chunksGo size fuel ((a :: t).drop size)

/-- Batching loop range(0, len(records), batch_size) of
sync_transactions. -/
def chunks {α : Type} (size : Nat) (l : List α) : List (List α) :=
  chunksGo size l.length l

/-- Upsert request sent for one batch: its data payload and the merge
field id passed as mergeFieldId. -/
structure UpsertBatch where
  data : List TxnRecord
  mergeFieldId : Nat
deriving DecidableEq

/-- sync_transactions (src/qb_sync.py lines 801-866): returns the skipped
count and the sequence of upsert requests; every batch carries merge
field 6, the quickbooks_id field of the transactions table. Batch errors
are logged and do not interrupt the sequence, so the request list never
depends on remote outcomes. -/
def sync_transactions (txns : List Txn) (amap : String → Option Nat) :
    Nat × List UpsertBatch :=
  let built := collectTxnRecords amap txns
  (built.1, (chunks 1000 built.2).map (fun b => { data := b, mergeFieldId := 6 }))

/-! ## Balance snapshot sync (src/app.py lines 1165-1251, src/qb_sync.py lines 704-798) -/

/-- Scraped account, with the fields sync_bank_balances reads; balances
are scaled integers. -/
structure Acct where
  qboAccountId : String
  bankBalance : Int
  qboBalance : Int
deriving DecidableEq

/-- Row of the remote balances table: the three fields the sync writes
and queries. -/
structure BalRow where
  balance : Int
  dateAdded : String
  relatedAccount : Nat
deriving DecidableEq

/-- Candidate snapshot records built by the first loop of
sync_bank_balances (src/app.py lines 1183-1200): an account without a
truthy parent record id is skipped; a zero bank balance falls back to the
ledger balance. -/
def candidateOf (amap : String → Option Nat) (today : String) (a : Acct) :
    Option BalRow :=
  match amap a.qboAccountId with
  | some rid =>
    if rid ≠ 0 then
      some ⟨(if a.bankBalance ≠ 0 then a.bankBalance else a.qboBalance), today, rid⟩
    else none
  | none => none

/-- Candidate record list in account order. -/
def balanceCandidates (accounts : List Acct) (amap : String → Option Nat)
    (today : String) : List BalRow :=
  accounts.filterMap (candidateOf amap today)

/-- Result of the pre-insert existence query (src/app.py lines
1211-1222): the truthy related-account ids of the rows dated today. -/
def existingAccounts (table : List BalRow) (today : String) : List Nat :=
  (table.filter (fun r => r.dateAdded == today)).filterMap
    (fun r => if r.relatedAccount ≠ 0 then some r.relatedAccount else none)

/-- sync_bank_balances (src/app.py lines 1165-1251): builds the candidate
records, drops the ones whose account already has a snapshot dated today
in the table, and inserts the remainder as new records (plain insert, no
merge key). tableSet models BALANCES_TABLE_ID being configured. Returns
the inserted records and the table after the insert. -/
def sync_bank_balances (tableSet : Bool) (accounts : List Acct)
    (amap : String → Option Nat) (today : String) (table : List BalRow) :
    List BalRow × List BalRow :=
  if tableSet = false then ([], table)
  else
    let cands := balanceCandidates accounts amap today
    let existing := existingAccounts table today
    let kept := cands.filter (fun r => !(decide (r.relatedAccount ∈ existing)))
    (kept, table ++ kept)

/-- Count of the snapshots a table holds for one account on one day. -/
def countSnapshots (table : List BalRow) (today : String) (rid : Nat) : Nat :=
  (table.filter (fun r => r.dateAdded == today && r.relatedAccount == rid)).length

/-! ## Sync orchestrator (src/app.py lines 240-359) -/

/-- Process-wide mutable state of the app that trigger_sync touches. -/
structure AppState where
  sync_in_progress : Bool
  pending_sms_code : Option String
  last_sync_result : Option String
deriving DecidableEq

/-- Abstract outcome of the sync body run under the try block: a summary
string, or the message of the exception it raised. -/
inductive SyncOutcome
  | ok : String → SyncOutcome
  | fail : String → SyncOutcome
deriving DecidableEq

/-- Response of the POST /sync handler. -/
inductive SyncResponse
  | alreadyRunning
  | complete : String → SyncResponse
  | httpError : Nat → String → SyncResponse
deriving DecidableEq

/-- Membership test of the Python in operator on strings: needle occurs
as a contiguous run of hay. -/
def containsSeq (needle : List Char) : List Char → Bool
  | [] => needle.isEmpty
  | c :: t => needle.isPrefixOf (c :: t) || containsSeq needle t

/-- String containment, Python needle in hay. -/
def strContains (hay needle : String) : Bool := containsSeq needle.data hay.data

/-- Status mapping of the except branch of trigger_sync (src/app.py lines
348-357): sentinel substrings of the exception text select 408 or 202,
anything else 500. -/
def errStatus (msg : String) : Nat :=
  if strContains msg "SMS_VERIFICATION_TIMEOUT" then 408
  else if strContains msg "SMS_VERIFICATION_REQUIRED" then 202
  else 500

/-- trigger_sync (src/app.py lines 240-359). missing lists the unset
required config names (checked before the flag is taken); outcome is the
abstract result of the guarded body. The result carries the response, the
state after the call, and whether a browser session was started (the body
is the only place one starts). The finally block resets the flag on both
the success and the exception path. -/
def trigger_sync (st : AppState) (missing : List String)
    (outcome : SyncOutcome) : SyncResponse × AppState × Bool :=
  if st.sync_in_progress then
    (SyncResponse.alreadyRunning, st, false)
  else if missing ≠ [] then
    (SyncResponse.httpError 500
      ("Missing config: " ++ String.intercalate ", " missing), st, false)
  else
    match outcome with
    | SyncOutcome.ok r =>
      (SyncResponse.complete r,
       { sync_in_progress := false, pending_sms_code := none,
         last_sync_result := some r }, true)
    | SyncOutcome.fail msg =>
      (SyncResponse.httpError (errStatus msg) msg,
       { sync_in_progress := false, pending_sms_code := none,
         last_sync_result := some ("Error: " ++ msg) }, true)

/-! ## Witness fixtures -/

/-- Fixture transaction whose account resolves in the fixture map. -/
def txnFxMapped : Txn :=
  ⟨"100:abc", "olb-1", "2026-01-02", "coffee", 500, "Expense", "Cafe", "a1"⟩

/-- Fixture transaction whose account id is absent from the fixture
map. -/
def txnFxOrphan : Txn :=
  ⟨"", "olb-2", "2026-01-02", "refund", 100, "Income", "", "zz"⟩

/-- Fixture account map used by witnesses. -/
def amapFx : String → Option Nat :=
  fun k => if k = "a1" then some 9 else if k = "a2" then some 10 else none

/-- Fixture account whose bank balance is nonzero. -/
def acctFx1 : Acct := ⟨"a1", 1200, 0⟩

/-- Fixture account whose zero bank balance falls back to the ledger
balance. -/
def acctFx2 : Acct := ⟨"a2", 0, 700⟩

/-- Fixture balances table already holding a snapshot of record 9 dated
the fixture day. -/
def tableFx : List BalRow := [⟨500, "2026-01-02", 9⟩]

/-! ## Theorems -/

theorem digit_not_pyspace {c : Char} (h : c.isDigit = true) :
    isPySpace c = false := by
  by_contra hb
  have hs : isPySpace c = true := by
    cases hx : isPySpace c
    · exact absurd hx hb
    · rfl
  unfold isPySpace at hs
  simp only [Bool.or_eq_true, beq_iff_eq] at hs
  rcases hs with ((((rfl | rfl) | rfl) | rfl) | rfl) | rfl <;>
    exact absurd h (by decide)

theorem dropWhile_eq_self_of_none {l : List Char}
    (h : ∀ c ∈ l, isPySpace c = false) : l.dropWhile isPySpace = l := by
  cases l with
  | nil => rfl
  | cons c t =>
    rw [List.dropWhile_cons, h c (List.mem_cons_self c t)]
    simp

theorem pyStripList_eq_self {l : List Char}
    (h : ∀ c ∈ l, isPySpace c = false) : pyStripList l = l := by
  unfold pyStripList
  rw [dropWhile_eq_self_of_none h,
    dropWhile_eq_self_of_none (fun c hc => h c (List.mem_reverse.mp hc)),
    List.reverse_reverse]

theorem pyStrip_eq_self {s : String} (h : ∀ c ∈ s.data, c.isDigit = true) :
    pyStrip s = s := by
  unfold pyStrip
  rw [pyStripList_eq_self (fun c hc => digit_not_pyspace (h c hc))]

/-- C4: every valid 6-digit numeric code is accepted by submit_code and
stored in the mailbox; the waiting login flow then takes exactly that
value once, clearing the slot, and a second take in the same wait cycle
yields none. -/
theorem C4_submit_then_take_once (s : String) (mb : Option String)
    (h6 : s.length = 6) (hd : ∀ c ∈ s.data, c.isDigit = true) :
    submit_code s mb = (Except.ok (), some s) ∧
    takeCode (some s) = (some s, none) ∧
    takeCode (takeCode (some s)).2 = (none, none) := by
  have hstrip : pyStrip s = s := pyStrip_eq_self hd
  have hne : s ≠ "" := by
    intro he; rw [he] at h6; exact absurd h6 (by decide)
  have hdata : s.data ≠ [] := by
    intro hx
    apply hne
    cases s with
    | mk d => cases hx; rfl
  have hdig : pyIsDigit s = true := by
    unfold pyIsDigit
    rw [Bool.and_eq_true]
    constructor
    · cases hx : s.data with
      | nil => exact absurd hx hdata
      | cons a t => rfl
    · exact List.all_eq_true.mpr hd
  have hcond : ¬(s = "" ∨ s.length ≠ 6 ∨ pyIsDigit s = false) := by
    rintro (hc | hc | hc)
    · exact hne hc
    · exact hc h6
    · rw [hdig] at hc; exact Bool.noConfusion hc
  refine ⟨?_, ?_, ?_⟩
  · simp only [submit_code, hstrip]
    rw [if_neg hcond]
  · simp [takeCode, hne]
  · simp [takeCode, hne]

/-- C4 witness at the code 123456 with an empty mailbox. -/
theorem C4_witness :
    submit_code "123456" none = (Except.ok (), some "123456") ∧
    takeCode (some "123456") = (some "123456", none) ∧
    takeCode (takeCode (some "123456")).2 = (none, none) :=
  C4_submit_then_take_once "123456" none (by decide) (by decide)

/-- C5 counterexample: the input string with surrounding spaces is not
itself exactly six numeric digits, yet submit_code accepts it and stores
the stripped code, so the claim as stated fails on it. -/
theorem C5_counterexample :
    (" 123456 " : String).length ≠ 6 ∧
    submit_code " 123456 " none = (Except.ok (), some "123456") := by
  exact ⟨by decide, by rfl⟩

/-- C5: amended - every input whose stripped form is not exactly six
numeric digits is rejected with HTTP 400 and the mailbox slot is
unchanged by the call. -/
theorem C5_invalid_code_rejected (input : String) (mb : Option String)
    (h : ¬((pyStrip input).length = 6 ∧ pyIsDigit (pyStrip input) = true)) :
    submit_code input mb = (Except.error 400, mb) := by
  have hcond : pyStrip input = "" ∨ (pyStrip input).length ≠ 6 ∨
      pyIsDigit (pyStrip input) = false := by
    by_cases h6 : (pyStrip input).length = 6
    · right; right
      cases hx : pyIsDigit (pyStrip input)
      · rfl
      · exact absurd ⟨h6, hx⟩ h
    · right; left; exact h6
  simp only [submit_code]
  rw [if_pos hcond]

/-- C5 witness at an input whose stripped form contains a letter. -/
theorem C5_witness :
    submit_code "12a456" (some "999999") = (Except.error 400, some "999999") :=
  C5_invalid_code_rejected "12a456" (some "999999") (by decide)

/-- C10: submit_code strips leading and trailing whitespace before
validating, so every input whose stripped form is exactly six numeric
digits is accepted and the mailbox then holds the stripped code; the
public interface thus accepts some strings that are not themselves
exactly six digits. -/
theorem C10_stripped_code_accepted (input : String) (mb : Option String)
    (h6 : (pyStrip input).length = 6)
    (hd : pyIsDigit (pyStrip input) = true) :
    submit_code input mb = (Except.ok (), some (pyStrip input)) := by
  have hne : pyStrip input ≠ "" := by
    intro he; rw [he] at h6; exact absurd h6 (by decide)
  have hcond : ¬(pyStrip input = "" ∨ (pyStrip input).length ≠ 6 ∨
      pyIsDigit (pyStrip input) = false) := by
    rintro (hc | hc | hc)
    · exact hne hc
    · exact hc h6
    · rw [hd] at hc; exact Bool.noConfusion hc
  simp only [submit_code]
  rw [if_neg hcond]

/-- C10 witness at an input with surrounding spaces. -/
theorem C10_witness :
    submit_code " 123456 " none = (Except.ok (), some (pyStrip " 123456 ")) ∧
    pyStrip " 123456 " = "123456" :=
  ⟨C10_stripped_code_accepted " 123456 " none (by decide) (by decide), by decide⟩

/-- C9: the single-flight guard - with a sync in flight every further
trigger answers already_running without starting a browser session or
changing any state; when no sync is in flight the flag is false again
after the call whether the body succeeded or raised; and a browser
session only ever starts from the not-in-flight path, so at most one sync
holds the browser at a time. -/
theorem C9_single_flight_guard (st : AppState) (missing : List String)
    (outcome : SyncOutcome) :
    (st.sync_in_progress = true →
      trigger_sync st missing outcome =
        (SyncResponse.alreadyRunning, st, false)) ∧
    (st.sync_in_progress = false →
      (trigger_sync st missing outcome).2.1.sync_in_progress = false) ∧
    ((trigger_sync st missing outcome).2.2 = true →
      st.sync_in_progress = false) := by
  refine ⟨?_, ?_, ?_⟩
  · intro h; simp [trigger_sync, h]
  · intro h
    by_cases hm : missing = [] <;> cases outcome <;> simp [trigger_sync, h, hm]
  · intro h
    cases hx : st.sync_in_progress
    · rfl
    · simp [trigger_sync, hx] at h

/-- C9 witness at a concrete in-flight state and a concrete idle state
whose body raises the verification-timeout sentinel. -/
theorem C9_witness :
    trigger_sync ⟨true, none, none⟩ [] (SyncOutcome.ok "done")
      = (SyncResponse.alreadyRunning, ⟨true, none, none⟩, false) ∧
    (trigger_sync ⟨false, some "123456", none⟩ []
      (SyncOutcome.fail "SMS_VERIFICATION_TIMEOUT")).2.1.sync_in_progress
      = false :=
  ⟨(C9_single_flight_guard ⟨true, none, none⟩ [] (SyncOutcome.ok "done")).1
      rfl,
   (C9_single_flight_guard ⟨false, some "123456", none⟩ []
      (SyncOutcome.fail "SMS_VERIFICATION_TIMEOUT")).2.1 rfl⟩

/-- C2 counterexample: on the spec scenario response (top-level flag
false, two sub-jobs, both complete) the qb_sync.py step declares
completion but the app.py copy does not, and a whole app.py poll run over
a stream of such responses times out; moreover the qb_sync.py step does
not declare completion on a response with an empty sub-job list even
though every sub-job then vacuously reports complete. -/
theorem C2_counterexample :
    pollStepSync (some scenarioResponse) = true ∧
    pollStepApp (some scenarioResponse) = false ∧
    (poll_update_status_loop pollStepApp
      (fun _ => some scenarioResponse) 60 15).1 = false ∧
    pollStepSync (some ⟨false, false, []⟩) = false := by
  refine ⟨by decide, by decide, by decide, by decide⟩

/-- C2: amended - the qb_sync.py copy of poll_update_status declares a
response complete exactly when the top-level isComplete flag is set or
the response has at least one sub-job and every sub-job reports complete;
the app.py copy consults only the top-level flag; missing responses
decide nothing in either copy. -/
theorem C2_completion_decision (r : PollResponse) :
    (pollStepSync (some r) = true ↔
      (r.isComplete = true ∨
        (r.subJobs ≠ [] ∧ ∀ sj ∈ r.subJobs, sj.isComplete = true))) ∧
    pollStepApp (some r) = r.isComplete ∧
    pollStepSync none = false ∧ pollStepApp none = false := by
  refine ⟨?_, rfl, rfl, rfl⟩
  cases hx : r.isComplete with
  | true => simp [pollStepSync, hx]
  | false =>
    simp only [pollStepSync, hx, Bool.false_eq_true, if_false]
    constructor
    · intro h
      right
      split at h
      case isTrue hcond =>
        refine ⟨List.length_pos.mp hcond.1, ?_⟩
        intro sj hsj
        exact List.countP_eq_length.mp hcond.2 sj hsj
      case isFalse hcond => exact Bool.noConfusion h
    · rintro (h | ⟨hne, hall⟩)
      · exact h.elim
      · rw [if_pos]
        exact ⟨List.length_pos.mpr hne,
          List.countP_eq_length.mpr (fun sj hsj => hall sj hsj)⟩

/-- C2 witness at the scenario response. -/
theorem C2_witness :
    (pollStepSync (some scenarioResponse) = true ↔
      (scenarioResponse.isComplete = true ∨
        (scenarioResponse.subJobs ≠ [] ∧
          ∀ sj ∈ scenarioResponse.subJobs, sj.isComplete = true))) ∧
    pollStepApp (some scenarioResponse) = scenarioResponse.isComplete ∧
    pollStepSync none = false ∧ pollStepApp none = false :=
  C2_completion_decision scenarioResponse

theorem pollIter_time_bound (step : Option PollResponse → Bool)
    (responses : Nat → Option PollResponse) (timeout interval : Nat) :
    ∀ fuel elapsed, elapsed < timeout + interval →
      timeout ≤ elapsed + fuel * interval →
      (pollIter step responses timeout interval elapsed fuel).2 <
        timeout + interval := by
  intro fuel
  induction fuel with
  | zero => intro elapsed h1 _; simpa [pollIter] using h1
  | succ n ih =>
    intro elapsed h1 h2
    simp only [pollIter]
    split
    case isTrue hlt =>
      split
      · simpa using Nat.lt_of_lt_of_le hlt (Nat.le_add_right _ _)
      · have h2x : timeout ≤ (elapsed + interval) + n * interval := by
          calc timeout ≤ elapsed + (n + 1) * interval := h2
            _ = (elapsed + interval) + n * interval := by ring
        exact ih (elapsed + interval) (by omega) h2x
    case isFalse hge => simpa using h1

theorem pollIter_false_of_never (step : Option PollResponse → Bool)
    (responses : Nat → Option PollResponse) (timeout interval : Nat)
    (hnever : ∀ n, step (responses n) = false) :
    ∀ fuel elapsed,
      (pollIter step responses timeout interval elapsed fuel).1 = false := by
  intro fuel
  induction fuel with
  | zero => intro elapsed; rfl
  | succ n ih =>
    intro elapsed
    by_cases h : elapsed < timeout
    · simp [pollIter, h, hnever, ih]
    · simp [pollIter, h]

/-- Liveness of the app.py poll loop: for every timeout, every positive
poll interval and every response stream, the loop returns with an
elapsed time strictly below timeout plus one poll interval, and when no
poll ever decides completion the outcome is the timed-out value
false. -/
theorem app_poll_loop_bounded (step : Option PollResponse → Bool)
    (responses : Nat → Option PollResponse) (timeout interval : Nat)
    (hpos : 0 < interval) :
    (poll_update_status_loop step responses timeout interval).2 <
      timeout + interval ∧
    ((∀ n, step (responses n) = false) →
      (poll_update_status_loop step responses timeout interval).1
        = false) := by
  constructor
  · apply pollIter_time_bound step responses timeout interval
    · omega
    · have h1 : (timeout + 1) * 1 ≤ (timeout + 1) * interval :=
        Nat.mul_le_mul_left (timeout + 1) hpos
      omega
  · intro h
    exact pollIter_false_of_never step responses timeout interval h _ _

theorem pollIterSync_time_bound (responses : Nat → Option PollResponse)
    (timeout interval : Nat) :
    ∀ fuel (bound : Bool) elapsed, elapsed < timeout + interval →
      timeout ≤ elapsed + fuel * interval →
      (pollIterSync responses timeout interval bound elapsed fuel).2 <
        timeout + interval := by
  intro fuel
  induction fuel with
  | zero => intro bound elapsed h1 _; simpa [pollIterSync] using h1
  | succ n ih =>
    intro bound elapsed h1 h2
    have h2x : timeout ≤ (elapsed + interval) + n * interval := by
      calc timeout ≤ elapsed + (n + 1) * interval := h2
        _ = (elapsed + interval) + n * interval := by ring
    simp only [pollIterSync]
    split
    case isTrue hlt =>
      split
      · split
        · simpa using Nat.lt_of_lt_of_le hlt
            (Nat.le_add_right timeout interval)
        · exact ih true (elapsed + interval) (by omega) h2x
      · exact ih bound (elapsed + interval) (by omega) h2x
    case isFalse hge => simpa using h1

/-- C3: code bug - on a poll window in which every request attempt
yields a non-200 status or a request exception (all responses missing),
the qb_sync.py copy of poll_update_status reaches its expiry path with
completed, total and is_complete never bound and raises
UnboundLocalError instead of returning False, contradicting the claim
and the docstring of the function itself; the same stream with one early
non-completing 200 response times out with False, the app.py copy
returns False on the all-bad stream as the claim states, a zero timeout
raises the same way, and every run shown returns within timeout plus one
poll interval. -/
theorem C3_qb_sync_expiry_raises_without_200 :
    poll_update_status_sync (fun _ => none) 600 15
      = (PollResult.unboundLocalError, 600) ∧
    poll_update_status_sync
      (fun n => if n = 0 then some ⟨false, false, [⟨false, false⟩]⟩
        else none) 600 15 = (PollResult.timedOut, 600) ∧
    poll_update_status_loop pollStepApp (fun _ => none) 600 15
      = (false, 600) ∧
    poll_update_status_sync (fun _ => none) 0 15
      = (PollResult.unboundLocalError, 0) := by
  refine ⟨by decide, by decide, by decide, by decide⟩

theorem searchSixDigits_sound :
    ∀ (l : List Char) (prev : Option Char) (code : List Char),
      searchSixDigits prev l = some code →
      code.length = 6 ∧ ∀ c ∈ code, c.isDigit = true := by
  intro l
  induction l with
  | nil => intro prev code h; exact absurd h (by simp [searchSixDigits])
  | cons c rest ih =>
    intro prev code h
    rw [searchSixDigits] at h
    split at h
    case isTrue hb =>
      injection h with h2
      subst h2
      unfold boundaryMatchHere at hb
      simp only [Bool.and_eq_true, beq_iff_eq] at hb
      refine ⟨hb.1.1.2, fun x hx => ?_⟩
      have := List.all_eq_true.mp hb.1.2
      exact this x hx
    case isFalse => exact ih (some c) code h

theorem search_found_implies_run :
    ∀ (l : List Char) (prev : Option Char) (code : List Char),
      searchSixDigits prev l = some code →
      specContainsSixDigitRun l = true := by
  intro l
  induction l with
  | nil => intro prev code h; exact absurd h (by simp [searchSixDigits])
  | cons c rest ih =>
    intro prev code h
    rw [searchSixDigits] at h
    rw [specContainsSixDigitRun, Bool.or_eq_true]
    split at h
    case isTrue hb =>
      unfold boundaryMatchHere at hb
      simp only [Bool.and_eq_true] at hb
      refine Or.inl ?_
      rw [Bool.and_eq_true]
      exact ⟨hb.1.1.2, hb.1.2⟩
    case isFalse => exact Or.inr (ih (some c) code h)

theorem no_run_no_match (s : String)
    (h : specContainsSixDigitRun s.data = false) : sixDigitSearch s = none := by
  unfold sixDigitSearch
  cases hx : searchSixDigits none s.data with
  | none => rfl
  | some code =>
    have hr := search_found_implies_run s.data none code hx
    rw [h] at hr
    exact Bool.noConfusion hr

/-- C8 counterexample: the body 1234567 contains a run of six consecutive
digits, yet both webhook handlers leave the mailbox unchanged on it
(while still acknowledging with 200), because the handlers search for a
word-boundary-delimited six-digit run and every six-digit window here is
adjacent to a further digit. -/
theorem C8_counterexample :
    specContainsSixDigitRun ("1234567" : String).data = true ∧
    twilio_sms_webhook "1234567" (some "000000") = (200, some "000000") ∧
    telnyx_sms_webhook (some ⟨"message.received", "1234567"⟩) none
      = (200, none) := by
  refine ⟨by decide, by decide, by decide⟩

/-- C8: amended - both webhook handlers acknowledge every request with
HTTP 200; the mailbox is set to the first word-boundary-delimited run of
exactly six digits of the message text when one exists (for Telnyx only
on message.received events) and is left unchanged otherwise; any
extracted code is six digits; and a body with no six-consecutive-digit
run at all never changes the mailbox. -/
theorem C8_webhooks_ack_and_extract (body : String) (p : Option TelnyxPayload)
    (mb : Option String) :
    (twilio_sms_webhook body mb).1 = 200 ∧
    (telnyx_sms_webhook p mb).1 = 200 ∧
    ((twilio_sms_webhook body mb).2 =
      match sixDigitSearch body with
      | some code => some code
      | none => mb) ∧
    (∀ code, sixDigitSearch body = some code →
      code.length = 6 ∧ ∀ c ∈ code.data, c.isDigit = true) ∧
    (specContainsSixDigitRun body.data = false →
      (twilio_sms_webhook body mb).2 = mb) ∧
    (∀ txt, p = some ⟨"message.received", txt⟩ →
      (telnyx_sms_webhook p mb).2 =
        match sixDigitSearch txt with
        | some code => some code
        | none => mb) ∧
    (∀ e txt, p = some ⟨e, txt⟩ → e ≠ "message.received" →
      (telnyx_sms_webhook p mb).2 = mb) := by
  refine ⟨?_, ?_, ?_, ?_, ?_, ?_, ?_⟩
  · cases hx : sixDigitSearch body <;> simp [twilio_sms_webhook, hx]
  · cases p with
    | none => rfl
    | some pp =>
      by_cases he : pp.eventType = "message.received"
      · cases hx : sixDigitSearch pp.text <;>
          simp [telnyx_sms_webhook, he, hx]
      · simp [telnyx_sms_webhook, he]
  · cases hx : sixDigitSearch body <;> simp [twilio_sms_webhook, hx]
  · intro code h
    unfold sixDigitSearch at h
    rcases Option.map_eq_some'.mp h with ⟨l, hl, hcode⟩
    have hs := searchSixDigits_sound body.data none l hl
    subst hcode
    exact hs
  · intro h
    have hx := no_run_no_match body h
    simp [twilio_sms_webhook, hx]
  · intro txt hp
    subst hp
    cases hx : sixDigitSearch txt <;> simp [telnyx_sms_webhook, hx]
  · intro e txt hp hne
    subst hp
    simp [telnyx_sms_webhook, hne]

/-- C8 witness at the spec example body. -/
theorem C8_witness :
    (twilio_sms_webhook "Your code is 482913, expires soon" none).2
      = some "482913" ∧
    (twilio_sms_webhook "Your code is 482913, expires soon" none).1
      = 200 := by
  have h := C8_webhooks_ack_and_extract "Your code is 482913, expires soon"
    none none
  refine ⟨?_, h.1⟩
  rw [h.2.2.1]
  decide

theorem addRespRows_apply (rows : List RespRow) :
    ∀ (m : String → Option Nat) (k : String),
      addRespRows m rows k =
        match respAssigns rows k with
        | some v => some v
        | none => m k := by
  induction rows with
  | nil => intro m k; rfl
  | cons row rest ih =>
    intro m k
    rw [addRespRows, ih, respAssigns]
    cases hr : respAssigns rest k with
    | some v => rfl
    | none =>
      cases hq : row.qbId with
      | none => rfl
      | some q =>
        cases hrec : row.recordId with
        | none => rfl
        | some r =>
          by_cases hr0 : r = 0
          · subst hr0; simp
          · by_cases hk : keyOf q = k
            · subst hk; simp [dictSet, hr0]
            · have hk2 : k ≠ keyOf q := fun hkk => hk hkk.symm
              simp [dictSet, hr0, hk, hk2]

theorem respAssigns_isSome_of_mem (q : Int) (r : Nat) (hr : r ≠ 0) :
    ∀ rows : List RespRow, (⟨some q, some r⟩ : RespRow) ∈ rows →
      ∃ v, respAssigns rows (keyOf q) = some v := by
  intro rows
  induction rows with
  | nil => intro h; cases h
  | cons row rest ih =>
    intro hmem
    rw [respAssigns]
    cases hx : respAssigns rest (keyOf q) with
    | some v => exact ⟨v, rfl⟩
    | none =>
      rcases List.mem_cons.mp hmem with heq | hmem2
      · rw [← heq]
        exact ⟨r, by simp [hr]⟩
      · rcases ih hmem2 with ⟨v, hv⟩
        rw [hv] at hx
        exact Option.noConfusion hx

/-- C6: the account map built by sync_accounts is the union of the
mappings read back from the upsert response and the full-table query
response - every account id appearing with a truthy record id in either
response is a key of the final map, mapped to the value the query
response assigns when it assigns one (the query wins on overlap), and to
the upsert-response value otherwise. -/
theorem C6_sync_accounts_union (urows qrows : List RespRow) (k : String) :
    (∀ v, respAssigns qrows k = some v →
      sync_accounts (some urows) (some qrows) k = some v) ∧
    (respAssigns qrows k = none →
      sync_accounts (some urows) (some qrows) k = respAssigns urows k) ∧
    (∀ q r, (⟨some q, some r⟩ : RespRow) ∈ urows ++ qrows → r ≠ 0 →
      ∃ v, sync_accounts (some urows) (some qrows) (keyOf q) = some v) := by
  refine ⟨?_, ?_, ?_⟩
  · intro v hv
    simp only [sync_accounts]
    rw [addRespRows_apply, hv]
  · intro hnone
    simp only [sync_accounts]
    rw [addRespRows_apply, hnone, addRespRows_apply]
    cases hx : respAssigns urows k <;> rfl
  · intro q r hmem hr
    simp only [sync_accounts]
    rw [addRespRows_apply]
    rcases List.mem_append.mp hmem with hu | hq2
    · cases hx : respAssigns qrows (keyOf q) with
      | some v => exact ⟨v, rfl⟩
      | none =>
        rw [addRespRows_apply]
        rcases respAssigns_isSome_of_mem q r hr urows hu with ⟨v, hv⟩
        rw [hv]
        exact ⟨v, rfl⟩
    · rcases respAssigns_isSome_of_mem q r hr qrows hq2 with ⟨v, hv⟩
      rw [hv]
      exact ⟨v, rfl⟩

/-- C6 witness: the upsert response maps id 7 to record 11; the query
response remaps 7 to 22 and adds 8 with record 33; key 9 appears in
neither response. -/
theorem C6_witness :
    sync_accounts (some [⟨some 7, some 11⟩])
      (some [⟨some 7, some 22⟩, ⟨some 8, some 33⟩]) "7" = some 22 ∧
    sync_accounts (some [⟨some 7, some 11⟩])
      (some [⟨some 7, some 22⟩, ⟨some 8, some 33⟩]) "9"
      = respAssigns [⟨some 7, some 11⟩] "9" ∧
    (∃ v, sync_accounts (some [⟨some 7, some 11⟩])
      (some [⟨some 7, some 22⟩, ⟨some 8, some 33⟩]) (keyOf 8) = some v) :=
  ⟨(C6_sync_accounts_union [⟨some 7, some 11⟩]
      [⟨some 7, some 22⟩, ⟨some 8, some 33⟩] "7").1 22 (by decide),
   (C6_sync_accounts_union [⟨some 7, some 11⟩]
      [⟨some 7, some 22⟩, ⟨some 8, some 33⟩] "9").2.1 (by decide),
   (C6_sync_accounts_union [⟨some 7, some 11⟩]
      [⟨some 7, some 22⟩, ⟨some 8, some 33⟩] (keyOf 8)).2.2 8 33
      (by decide) (by decide)⟩

theorem collectTxnRecords_eq (amap : String → Option Nat) :
    ∀ txns : List Txn,
      collectTxnRecords amap txns =
        ((txns.filter (txnUnmapped amap)).length,
         txns.filterMap (fun t =>
           match amap t.accountId with
           | some rid => if rid ≠ 0 then some (recordOfTxn t rid) else none
           | none => none)) := by
  intro txns
  induction txns with
  | nil => rfl
  | cons t ts ih =>
    cases hx : amap t.accountId with
    | none =>
      simp [collectTxnRecords, ih, List.filter_cons, List.filterMap_cons,
        txnUnmapped, hx]
    | some rid =>
      by_cases h0 : rid = 0
      · subst h0
        simp [collectTxnRecords, ih, List.filter_cons, List.filterMap_cons,
          txnUnmapped, hx]
      · simp [collectTxnRecords, ih, List.filter_cons, List.filterMap_cons,
          txnUnmapped, hx, h0]

theorem chunksGo_flatten {α : Type} (size : Nat) (hs : 0 < size) :
    ∀ (fuel : Nat) (l : List α), l.length ≤ fuel →
      (chunksGo size fuel l).flatten = l := by
  intro fuel
  induction fuel with
  | zero =>
    intro l hl
    cases l with
    | nil => rfl
    | cons a t => exact absurd hl (by simp)
  | succ n ih =>
    intro l hl
    cases l with
    | nil => rfl
    | cons a t =>
      rw [chunksGo, List.flatten_cons]
      rw [ih]
      · exact List.take_append_drop size (a :: t)
      · rw [List.length_drop]
        have hlen : (a :: t).length ≤ n + 1 := hl
        omega

theorem chunksGo_sizes {α : Type} (size : Nat) (hs : 0 < size) :
    ∀ (fuel : Nat) (l : List α), l.length ≤ fuel →
      ∀ b ∈ chunksGo size fuel l, b.length ≤ size := by
  intro fuel
  induction fuel with
  | zero =>
    intro l hl b hb
    cases l with
    | nil => simp [chunksGo] at hb
    | cons a t => exact absurd hl (by simp)
  | succ n ih =>
    intro l hl b hb
    cases l with
    | nil => simp [chunksGo] at hb
    | cons a t =>
      rw [chunksGo] at hb
      rcases List.mem_cons.mp hb with rfl | hb2
      · rw [List.length_take]
        exact Nat.min_le_left _ _
      · refine ih _ ?_ b hb2
        rw [List.length_drop]
        have hlen : (a :: t).length ≤ n + 1 := hl
        omega

theorem map_data_wrap (cs : List (List TxnRecord)) :
    ((cs.map (fun b => ({ data := b, mergeFieldId := 6 } : UpsertBatch))).map
      (fun b => b.data)) = cs := by
  induction cs with
  | nil => rfl
  | cons c cst ih => simp [ih]

/-- C7: sync_transactions counts exactly the unmapped transactions as
skipped, builds records for exactly the mapped ones in input order (so an
unmapped transaction contributes no record and never fails the run),
splits the records into batches of at most 1000, sends every batch with
the olb-id merge field (field 6), and every sent record carries its
transaction olb id as the merge-key value. -/
theorem C7_transactions_skip_and_batch (txns : List Txn)
    (amap : String → Option Nat) :
    (sync_transactions txns amap).1
      = (txns.filter (txnUnmapped amap)).length ∧
    ((sync_transactions txns amap).2.map (fun b => b.data)).flatten
      = txns.filterMap (fun t =>
          match amap t.accountId with
          | some rid => if rid ≠ 0 then some (recordOfTxn t rid) else none
          | none => none) ∧
    (∀ b ∈ (sync_transactions txns amap).2,
      b.data.length ≤ 1000 ∧ b.mergeFieldId = 6) ∧
    (∀ b ∈ (sync_transactions txns amap).2, ∀ r ∈ b.data,
      ∃ t, t ∈ txns ∧ r.quickbooksId = t.olbTxnId) := by
  have hjoin : ∀ (recs : List TxnRecord), (chunks 1000 recs).flatten = recs :=
    fun recs => chunksGo_flatten 1000 (by decide) recs.length recs
      (Nat.le_refl _)
  refine ⟨?_, ?_, ?_, ?_⟩
  · simp only [sync_transactions, collectTxnRecords_eq amap txns]
  · simp only [sync_transactions, collectTxnRecords_eq amap txns]
    rw [map_data_wrap]
    exact hjoin _
  · intro b hb
    simp only [sync_transactions, List.mem_map] at hb
    rcases hb with ⟨c, hc, rfl⟩
    refine ⟨chunksGo_sizes 1000 (by decide) _ _ (Nat.le_refl _) c hc, rfl⟩
  · intro b hb r hr
    simp only [sync_transactions, List.mem_map] at hb
    rcases hb with ⟨c, hc, rfl⟩
    have hmem : r ∈ (chunks 1000 (collectTxnRecords amap txns).2).flatten :=
      List.mem_flatten.mpr ⟨c, hc, hr⟩
    rw [hjoin, collectTxnRecords_eq amap txns] at hmem
    rcases List.mem_filterMap.mp hmem with ⟨t, ht, hft⟩
    refine ⟨t, ht, ?_⟩
    cases hx : amap t.accountId with
    | none => rw [hx] at hft; exact Option.noConfusion hft
    | some rid =>
      rw [hx] at hft
      by_cases h0 : rid = 0
      · subst h0; simp at hft
      · simp only [ne_eq, h0, not_false_eq_true, if_true,
          Option.some.injEq] at hft
        rw [← hft]
        rfl

/-- C7 witness at one mapped and one unmapped fixture transaction. -/
theorem C7_witness :
    (sync_transactions [txnFxMapped, txnFxOrphan] amapFx).1
      = ([txnFxMapped, txnFxOrphan].filter (txnUnmapped amapFx)).length ∧
    ((sync_transactions [txnFxMapped, txnFxOrphan] amapFx).2.map
      (fun b => b.data)).flatten
      = [txnFxMapped, txnFxOrphan].filterMap (fun t =>
          match amapFx t.accountId with
          | some rid => if rid ≠ 0 then some (recordOfTxn t rid) else none
          | none => none) ∧
    (∀ b ∈ (sync_transactions [txnFxMapped, txnFxOrphan] amapFx).2,
      b.data.length ≤ 1000 ∧ b.mergeFieldId = 6) ∧
    (∀ b ∈ (sync_transactions [txnFxMapped, txnFxOrphan] amapFx).2,
      ∀ r ∈ b.data, ∃ t, t ∈ [txnFxMapped, txnFxOrphan] ∧
        r.quickbooksId = t.olbTxnId) :=
  C7_transactions_skip_and_batch [txnFxMapped, txnFxOrphan] amapFx

theorem existingAccounts_append (t u : List BalRow) (today : String) :
    existingAccounts (t ++ u) today
      = existingAccounts t today ++ existingAccounts u today := by
  unfold existingAccounts
  rw [List.filter_append, List.filterMap_append]

theorem balanceCandidates_props (accounts : List Acct)
    (amap : String → Option Nat) (today : String) :
    ∀ r ∈ balanceCandidates accounts amap today,
      r.dateAdded = today ∧ r.relatedAccount ≠ 0 := by
  intro r hr
  rcases List.mem_filterMap.mp hr with ⟨a, _, hfa⟩
  unfold candidateOf at hfa
  cases hx : amap a.qboAccountId with
  | none => rw [hx] at hfa; exact Option.noConfusion hfa
  | some rid =>
    rw [hx] at hfa
    by_cases h0 : rid = 0
    · subst h0; simp at hfa
    · simp only [ne_eq, h0, not_false_eq_true, if_true,
        Option.some.injEq] at hfa
      rw [← hfa]
      exact ⟨rfl, h0⟩

theorem mem_existingAccounts_of (l : List BalRow) (today : String)
    (r : BalRow) (hr : r ∈ l) (hd : r.dateAdded = today)
    (h0 : r.relatedAccount ≠ 0) :
    r.relatedAccount ∈ existingAccounts l today := by
  unfold existingAccounts
  apply List.mem_filterMap.mpr
  refine ⟨r, List.mem_filter.mpr ⟨hr, by simp [hd]⟩, by simp [h0]⟩

theorem countSnapshots_append (t u : List BalRow) (today : String)
    (rid : Nat) :
    countSnapshots (t ++ u) today rid
      = countSnapshots t today rid + countSnapshots u today rid := by
  unfold countSnapshots
  rw [List.filter_append, List.length_append]

theorem countSnapshots_zero (t : List BalRow) (today : String) (rid : Nat)
    (h0 : rid ≠ 0) (hnot : rid ∉ existingAccounts t today) :
    countSnapshots t today rid = 0 := by
  unfold countSnapshots
  rw [List.length_eq_zero, List.filter_eq_nil_iff]
  intro r hr hcond
  simp only [Bool.and_eq_true, beq_iff_eq] at hcond
  obtain ⟨hd, hrel⟩ := hcond
  have hmem := mem_existingAccounts_of t today r hr hd
    (by rw [hrel]; exact h0)
  rw [hrel] at hmem
  exact hnot hmem

theorem countP_congr_on {α : Type} (l : List α) (p q : α → Bool)
    (h : ∀ x ∈ l, p x = q x) : l.countP p = l.countP q := by
  induction l with
  | nil => rfl
  | cons a t ih =>
    rw [List.countP_cons, List.countP_cons,
      h a (List.mem_cons_self a t),
      ih (fun x hx => h x (List.mem_cons_of_mem a hx))]

theorem countP_beq_one_of_nodup_map {α β : Type} [BEq β] [LawfulBEq β]
    (f : α → β) :
    ∀ l : List α, (l.map f).Nodup → ∀ r ∈ l,
      l.countP (fun x => f x == f r) = 1 := by
  intro l
  induction l with
  | nil => intro _ r hr; cases hr
  | cons a t ih =>
    intro hnd r hr
    rw [List.map_cons] at hnd
    obtain ⟨hna, hnt⟩ := List.nodup_cons.mp hnd
    rw [List.countP_cons]
    rcases List.mem_cons.mp hr with rfl | hrt
    · have ht0 : t.countP (fun x => f x == f r) = 0 := by
        rw [List.countP_eq_zero]
        intro x hx
        simp only [beq_iff_eq]
        intro hfx
        apply hna
        rw [← hfx]
        exact List.mem_map_of_mem f hx
      simp [ht0]
    · rw [ih hnt r hrt]
      have hne : (f a == f r) = false := by
        simp only [beq_eq_false_iff_ne, ne_eq]
        intro hfa
        apply hna
        rw [hfa]
        exact List.mem_map_of_mem f hrt
      simp [hne]

/-- C1: the balance-snapshot sync filters out every account that already
has a snapshot dated today in the remote table (per the pre-insert
existence query) and inserts exactly the remaining candidates; running it
twice on the same calendar day with the same inputs makes the second run
insert nothing and leave the table unchanged, and every account whose
candidate was not already covered ends with exactly one snapshot for
today - assuming one candidate record per account (distinct parent record
ids), as holds for an account set. -/
theorem C1_balance_sync_idempotent (accounts : List Acct)
    (amap : String → Option Nat) (today : String) (t0 : List BalRow)
    (hnodup : ((balanceCandidates accounts amap today).map
      (fun r => r.relatedAccount)).Nodup) :
    (sync_bank_balances true accounts amap today t0).1
      = (balanceCandidates accounts amap today).filter
          (fun r =>
            !(decide (r.relatedAccount ∈ existingAccounts t0 today))) ∧
    (∀ r ∈ (sync_bank_balances true accounts amap today t0).1,
      r.relatedAccount ∉ existingAccounts t0 today) ∧
    (sync_bank_balances true accounts amap today
      (sync_bank_balances true accounts amap today t0).2).1 = [] ∧
    (sync_bank_balances true accounts amap today
      (sync_bank_balances true accounts amap today t0).2).2
      = (sync_bank_balances true accounts amap today t0).2 ∧
    (∀ r ∈ balanceCandidates accounts amap today,
      r.relatedAccount ∉ existingAccounts t0 today →
        countSnapshots t0 today r.relatedAccount = 0 ∧
        countSnapshots (sync_bank_balances true accounts amap today
          (sync_bank_balances true accounts amap today t0).2).2 today
          r.relatedAccount = 1) := by
  have hprops := balanceCandidates_props accounts amap today
  set cands := balanceCandidates accounts amap today with hcands
  set ex0 := existingAccounts t0 today with hex0
  set ins1 := cands.filter
    (fun r => !(decide (r.relatedAccount ∈ ex0))) with hins1
  have hrun1 : sync_bank_balances true accounts amap today t0
      = (ins1, t0 ++ ins1) := rfl
  have hcov : ∀ r ∈ cands,
      r.relatedAccount ∈ existingAccounts (t0 ++ ins1) today := by
    intro r hr
    rw [existingAccounts_append]
    rcases em (r.relatedAccount ∈ ex0) with hin | hnot
    · exact List.mem_append_left _ hin
    · refine List.mem_append_right _ ?_
      have hr1 : r ∈ ins1 := List.mem_filter.mpr ⟨hr, by simp [hnot]⟩
      obtain ⟨hd, h0⟩ := hprops r hr
      exact mem_existingAccounts_of _ today r hr1 hd h0
  have hins2 : cands.filter
      (fun r =>
        !(decide (r.relatedAccount ∈ existingAccounts (t0 ++ ins1) today)))
      = [] := by
    rw [List.filter_eq_nil_iff]
    intro r hr
    simp only [Bool.not_eq_true', decide_eq_false_iff_not, not_not]
    exact hcov r hr
  have hrun2 : sync_bank_balances true accounts amap today (t0 ++ ins1)
      = ([], t0 ++ ins1) := by
    show ((cands.filter fun r =>
        !(decide (r.relatedAccount ∈ existingAccounts (t0 ++ ins1) today))),
      (t0 ++ ins1) ++ (cands.filter fun r =>
        !(decide (r.relatedAccount ∈ existingAccounts (t0 ++ ins1) today))))
      = ([], t0 ++ ins1)
    rw [hins2, List.append_nil]
  rw [hrun1]
  refine ⟨rfl, ?_, ?_, ?_, ?_⟩
  · intro r hr
    obtain ⟨_, hcond⟩ := List.mem_filter.mp hr
    simp only [Bool.not_eq_true', decide_eq_false_iff_not] at hcond
    exact hcond
  · rw [hrun2]
  · rw [hrun2]
  · intro r hr hnot
    obtain ⟨hd, h0⟩ := hprops r hr
    have hzero : countSnapshots t0 today r.relatedAccount = 0 :=
      countSnapshots_zero t0 today r.relatedAccount h0 hnot
    refine ⟨hzero, ?_⟩
    rw [hrun2]
    show countSnapshots (t0 ++ ins1) today r.relatedAccount = 1
    rw [countSnapshots_append, hzero]
    have hone : countSnapshots ins1 today r.relatedAccount = 1 := by
      unfold countSnapshots
      rw [← List.countP_eq_length_filter, hins1, List.countP_filter]
      have hpt : ∀ x ∈ cands,
          ((x.dateAdded == today && x.relatedAccount == r.relatedAccount)
            && !(decide (x.relatedAccount ∈ ex0)))
          = (x.relatedAccount == r.relatedAccount) := by
        intro x hx
        obtain ⟨hxd, _⟩ := hprops x hx
        by_cases hrel : x.relatedAccount = r.relatedAccount
        · simp [hxd, hrel, hnot]
        · have hb : (x.relatedAccount == r.relatedAccount) = false :=
            beq_eq_false_iff_ne.mpr hrel
          simp [hb]
      rw [countP_congr_on cands _ _ hpt]
      exact countP_beq_one_of_nodup_map
        (fun row : BalRow => row.relatedAccount) cands hnodup r hr
    rw [hone]

/-- C1 witness: account a1 already has a snapshot for the fixture day,
account a2 does not; the first run inserts exactly the a2 snapshot and
the second run inserts nothing. -/
theorem C1_witness :
    (sync_bank_balances true [acctFx1, acctFx2] amapFx "2026-01-02"
      tableFx).1
      = (balanceCandidates [acctFx1, acctFx2] amapFx "2026-01-02").filter
          (fun r => !(decide (r.relatedAccount ∈
            existingAccounts tableFx "2026-01-02"))) ∧
    (∀ r ∈ (sync_bank_balances true [acctFx1, acctFx2] amapFx "2026-01-02"
        tableFx).1,
      r.relatedAccount ∉ existingAccounts tableFx "2026-01-02") ∧
    (sync_bank_balances true [acctFx1, acctFx2] amapFx "2026-01-02"
      (sync_bank_balances true [acctFx1, acctFx2] amapFx "2026-01-02"
        tableFx).2).1 = [] ∧
    (sync_bank_balances true [acctFx1, acctFx2] amapFx "2026-01-02"
      (sync_bank_balances true [acctFx1, acctFx2] amapFx "2026-01-02"
        tableFx).2).2
      = (sync_bank_balances true [acctFx1, acctFx2] amapFx "2026-01-02"
        tableFx).2 ∧
    (∀ r ∈ balanceCandidates [acctFx1, acctFx2] amapFx "2026-01-02",
      r.relatedAccount ∉ existingAccounts tableFx "2026-01-02" →
        countSnapshots tableFx "2026-01-02" r.relatedAccount = 0 ∧
        countSnapshots (sync_bank_balances true [acctFx1, acctFx2] amapFx
          "2026-01-02" (sync_bank_balances true [acctFx1, acctFx2] amapFx
            "2026-01-02" tableFx).2).2 "2026-01-02" r.relatedAccount = 1) :=
  C1_balance_sync_idempotent [acctFx1, acctFx2] amapFx "2026-01-02" tableFx
    (by decide)

end QBSync
